import Mathlib

/-!
Verification of the PixelPeek answer-validation engine and round state
machine against their JavaScript sources
(`src/lib/advancedAnswerValidator.js`, revision `20251224084214`, and the
`App.jsx` / `GameContext.jsx` round logic, revisions `20251219091930` and
`20251224084142`).

JavaScript numbers that arise in the validator are exact small fractions,
modelled as `ℚ`; the IEEE value `NaN` (which the validator can produce via
`0 / 0` in `jaccardSimilarity` and then propagate through `Math.max`) is
modelled by `Option ℚ` with `none` for `NaN`.  Because core `Rat`
arithmetic does not reduce inside the Lean kernel (its normalisation uses
well-founded recursion), the embedding builds its rationals with a
fuel-based gcd (`sgcd`) and `Rat.mk'`; `qdivN_eq` and `qsub_eq` prove that
these constructions agree with ordinary rational division and subtraction.
-/

/-- Greatest common divisor by the Euclidean algorithm, with explicit fuel
so that the kernel can reduce it.  `gcdGo fuel a b` equals `Nat.gcd a b`
whenever `a ≤ fuel`. -/
def gcdGo : Nat → Nat → Nat → Nat
  | 0, _, b => b
  | _ + 1, 0, b => b
  | fuel + 1, a + 1, b => gcdGo fuel (b % (a + 1)) (a + 1)

/-- Kernel-reducible `Nat.gcd`. -/
def sgcd (a b : Nat) : Nat := gcdGo (a + 1) a b

theorem gcdGo_eq (fuel a b : Nat) (h : a ≤ fuel) : gcdGo fuel a b = Nat.gcd a b := by
  induction fuel generalizing a b with
  | zero =>
    have ha : a = 0 := Nat.le_zero.mp h
    subst ha
    simp [gcdGo, Nat.gcd_zero_left]
  | succ n ih =>
    cases a with
    | zero => simp [gcdGo, Nat.gcd_zero_left]
    | succ m =>
      rw [gcdGo,
        ih (b % (m + 1)) (m + 1)
          (Nat.le_of_lt_succ (Nat.lt_of_lt_of_le (Nat.mod_lt b (Nat.succ_pos m)) h)),
        Nat.gcd_succ]

theorem sgcd_eq (a b : Nat) : sgcd a b = Nat.gcd a b := gcdGo_eq _ _ _ (Nat.le_succ a)

theorem sgcd_dvd_left (a b : Nat) : sgcd a b ∣ a := by
  rw [sgcd_eq]; exact Nat.gcd_dvd_left a b

theorem sgcd_dvd_right (a b : Nat) : sgcd a b ∣ b := by
  rw [sgcd_eq]; exact Nat.gcd_dvd_right a b

/-- The rational `a / b` for naturals, built through `Rat.mk'` so that the
kernel can evaluate it.  `qdivN a 0 = 0`; every use in the embedding either
guards the denominator or wraps the division in `jsDivNat`, which maps the
`0 / 0` case to `NaN`. -/
def qdivN (a b : Nat) : ℚ :=
  if hb : b = 0 then 0
  else
    Rat.mk' ((a / sgcd a b : ℕ) : ℤ) (b / sgcd a b)
      (by
        rw [sgcd_eq]
        exact Nat.ne_of_gt (Nat.div_pos
          (Nat.le_of_dvd (Nat.pos_of_ne_zero hb) (Nat.gcd_dvd_right a b))
          (Nat.gcd_pos_of_pos_right a (Nat.pos_of_ne_zero hb))))
      (by
        rw [sgcd_eq]
        simpa using Nat.coprime_div_gcd_div_gcd
          (Nat.gcd_pos_of_pos_right a (Nat.pos_of_ne_zero hb)))

theorem qdivN_eq (a b : Nat) (hb : b ≠ 0) : qdivN a b = (a : ℚ) / b := by
  have hbpos : 0 < b := Nat.pos_of_ne_zero hb
  have hgpos : 0 < sgcd a b := by
    rw [sgcd_eq]; exact Nat.gcd_pos_of_pos_right a hbpos
  have hgQ : ((sgcd a b : ℚ)) ≠ 0 := by exact_mod_cast Nat.pos_iff_ne_zero.mp hgpos
  have hdl := sgcd_dvd_left a b
  have hdr := sgcd_dvd_right a b
  rw [qdivN, dif_neg hb, Rat.mk'_eq_divInt, Rat.divInt_eq_div]
  set g := sgcd a b with hg
  obtain ⟨x, hx⟩ := hdl
  obtain ⟨y, hy⟩ := hdr
  rw [hx, hy, Nat.mul_div_cancel_left x hgpos, Nat.mul_div_cancel_left y hgpos,
    Int.cast_natCast, Int.cast_natCast, Nat.cast_mul, Nat.cast_mul,
    mul_div_mul_left _ _ hgQ]

/-- The rational `n / d` for an integer numerator, kernel-reducible. -/
def qdivZ (n : ℤ) (d : Nat) : ℚ :=
  if 0 ≤ n then qdivN n.natAbs d else -(qdivN n.natAbs d)

theorem qdivZ_eq (n : ℤ) (d : Nat) (hd : d ≠ 0) : qdivZ n d = (n : ℚ) / d := by
  rw [qdivZ]
  split
  · rw [qdivN_eq _ _ hd]
    congr 1
    rw [Int.cast_natAbs]
    exact_mod_cast abs_of_nonneg (by assumption : 0 ≤ n)
  · rw [qdivN_eq _ _ hd, ← neg_div]
    congr 1
    have hn : n < 0 := lt_of_not_le (by assumption)
    rw [Int.cast_natAbs, abs_of_nonpos (le_of_lt hn)]
    push_cast
    ring

/-- Exact subtraction of rationals, kernel-reducible (cross multiplication
on the reduced representations). -/
def qsub (x y : ℚ) : ℚ := qdivZ (x.num * (y.den : ℤ) - y.num * (x.den : ℤ)) (x.den * y.den)

theorem qsub_eq (x y : ℚ) : qsub x y = x - y := by
  have hx : (x.den : ℚ) ≠ 0 := by exact_mod_cast x.den_nz
  have hy : (y.den : ℚ) ≠ 0 := by exact_mod_cast y.den_nz
  rw [qsub, qdivZ_eq _ _ (Nat.mul_ne_zero x.den_nz y.den_nz)]
  rw [div_eq_iff (by exact_mod_cast Nat.mul_ne_zero x.den_nz y.den_nz)]
  push_cast
  have hx' : ((x.num : ℚ)) = x * (x.den : ℚ) := (div_eq_iff hx).mp (Rat.num_div_den x)
  have hy' : ((y.num : ℚ)) = y * (y.den : ℚ) := (div_eq_iff hy).mp (Rat.num_div_den y)
  rw [hx', hy']
  ring

/-- JavaScript division of two non-negative counts.  The only reachable
division by zero in the validator is `0 / 0`, whose JavaScript value is
`NaN`, modelled as `none`. -/
def jsDivNat (a b : Nat) : Option ℚ :=
  if b = 0 then none else some (qdivN a b)

/-- JavaScript `x >= t` where `x` may be `NaN`: any comparison with `NaN`
is false. -/
def jsGe (x : Option ℚ) (t : ℚ) : Bool :=
  match x with
  | none => false
  | some v => t ≤ v

/-- JavaScript `Math.max`, which propagates `NaN`. -/
def jsMax (x y : Option ℚ) : Option ℚ :=
  match x, y with
  | some a, some b => some (max a b)
  | _, _ => none

/-- JavaScript `Math.round (q * 100)` (round half towards positive
infinity), used only for the verdict's informational `score` field. -/
def jsRound100 (q : ℚ) : ℤ := (200 * q.num + (q.den : ℤ)).fdiv (2 * (q.den : ℤ))

/-!
String primitives.  JavaScript strings are modelled as `List Char`; the
sources only ever compare, slice and tokenize ASCII text, for which Lean's
per-character `Char.toLower` / `Char.toUpper` agree with JavaScript's
`toLowerCase` / `toUpperCase`.
-/

/-- The whitespace characters matched by JavaScript's `\s` (ASCII part) and
removed by `String.prototype.trim`. -/
def jsIsSpace (c : Char) : Bool :=
  c == ' ' || c == '\t' || c == '\n' || c == '\r' || c == '\x0b' || c == '\x0c'

/-- `String.prototype.toLowerCase`, per character. -/
def jsToLower (s : List Char) : List Char := s.map Char.toLower

/-- `String.prototype.toUpperCase`, per character. -/
def jsToUpper (s : List Char) : List Char := s.map Char.toUpper

/-- `String.prototype.trim`: drop leading and trailing whitespace. -/
def jsTrim (s : List Char) : List Char :=
  ((s.dropWhile jsIsSpace).reverse.dropWhile jsIsSpace).reverse

/-- Does `l` start with `p`? -/
def listStarts : List Char → List Char → Bool
  | _, [] => true
  | [], _ :: _ => false
  | a :: as, b :: bs => a == b && listStarts as bs

/-- `String.prototype.includes`: `jsIncludes hay sub` is true when `sub`
occurs contiguously in `hay` (the empty string occurs in every string). -/
def jsIncludes : List Char → List Char → Bool
  | [], sub => listStarts [] sub
  | c :: rest, sub => listStarts (c :: rest) sub || jsIncludes rest sub

/-- A character matched by the regular expression class `\w`
(`[A-Za-z0-9_]`). -/
def isWordChar (c : Char) : Bool :=
  ('a' ≤ c && c ≤ 'z') || ('A' ≤ c && c ≤ 'Z') || ('0' ≤ c && c ≤ '9') || c == '_'

/-- One step of `splitWords`, right to left: `acc.1` is the word currently
being collected, `acc.2` the completed words to the right. -/
def splitWordsAux (c : Char) (acc : List Char × List (List Char)) :
    List Char × List (List Char) :=
  if jsIsSpace c then ([], if acc.1 = [] then acc.2 else acc.1 :: acc.2)
  else (c :: acc.1, acc.2)

/-- `text.split(/\s+/)` followed by `.filter((t) => t.length > 0)`: the
maximal runs of non-whitespace characters, in order. -/
def splitWords (l : List Char) : List (List Char) :=
  let r := l.foldr splitWordsAux ([], [])
  if r.1 = [] then r.2 else r.1 :: r.2

/-!
The match engine: `src/lib/advancedAnswerValidator.js` (revision
`20251224084214`).  The remote Gemini call of strategy 5 is the only
non-deterministic step; it is abstracted as a parameter
`judge : Option (Bool × ℚ)`, where `none` stands for any transport failure,
non-ok response or unparsable body, and `some (v, c)` for a parsed reply
whose `isValid` field is `v` and whose `confidence || 0` value is `c`.
-/

/-- `tokenizeAndNormalize`: lower-case, delete the characters matched by
`[^\w\s]`, split on whitespace and drop empty tokens. -/
def tokenizeAndNormalize (text : List Char) : List (List Char) :=
  splitWords ((jsToLower text).filter (fun c => isWordChar c || jsIsSpace c))

/-- First-occurrence deduplication with the already-seen elements carried
along, so the recursion is structural. -/
def dedupGo (seen : List (List Char)) : List (List Char) → List (List Char)
  | [] => []
  | x :: xs => if seen.contains x then dedupGo seen xs else x :: dedupGo (x :: seen) xs

/-- The element list of `new Set(l)`: first occurrences, in order. -/
def dedupList (l : List (List Char)) : List (List Char) := dedupGo [] l

/-- `jaccardSimilarity`: `|set1 ∩ set2| / |set1 ∪ set2|`.  The source
divides the set sizes directly, so when both token lists are empty the
JavaScript result is `0 / 0 = NaN` (`none` here), not `0`. -/
def jaccardSimilarity (tokens1 tokens2 : List (List Char)) : Option ℚ :=
  let set1 := dedupList tokens1
  let set2 := dedupList tokens2
  let inter := set1.filter (fun x => set2.contains x)
  let union := dedupList (set1 ++ set2)
  jsDivNat inter.length union.length

/-- One row of the `levenshteinDistance` matrix, left to right: `left` is
the value just written in the current row, `prev` walks the previous row
(so its head is the diagonal neighbour), `c2` is `str2[j-1]`.  The middle
argument of the source's `Math.min` reads `matrix[j][i]` itself, which at
that moment still holds its initialisation value `0`, so it contributes the
constant `0 + 1`; the embedding reproduces this faithfully. -/
def levRowGo (c2 : Char) : List Char → List Nat → Nat → List Nat
  | [], _, _ => []
  | _ :: _, [], _ => []
  | c1 :: cs, p :: ps, left =>
    let cell := min (min (left + 1) (0 + 1)) (p + (if c1 = c2 then 0 else 1))
    cell :: levRowGo c2 cs ps cell

/-- The outer row loop of `levenshteinDistance`: `row` is row `j - 1`
(cells `0 … len1`), and each step computes row `j` with border value `j`. -/
def levLoop (s1 : List Char) : List Char → List Nat → Nat → List Nat
  | [], row, _ => row
  | c2 :: rest, row, j => levLoop s1 rest (j :: levRowGo c2 s1 row j) (j + 1)

/-- `levenshteinDistance(str1, str2)`: the dynamic program of the source,
including its defect that the deletion term reads the still-zero current
cell (so every inner cell is at most `1`). -/
def levenshteinDistance (str1 str2 : List Char) : Nat :=
  (levLoop str1 str2 (List.range (str1.length + 1)) 1).getLastD 0

/-- `fuzzyMatchScore(guess, answer) = 1 - distance / maxLen`, with the
source's early return `1.0` for two empty strings. -/
def fuzzyMatchScore (guess answer : List Char) : ℚ :=
  let maxLen := max guess.length answer.length
  if maxLen = 0 then 1
  else qsub 1 (qdivN (levenshteinDistance guess answer) maxLen)

/-- The `strategy` tags the validator returns. -/
inductive Strategy where
  | EMPTY
  | EXACT
  | SUBSTRING
  | FUZZY
  | JACCARD
  | GEMINI_SEMANTIC
  | REJECTED
deriving DecidableEq

/-- The object `validateAnswerAdvanced` resolves with.  `confidence` is an
IEEE number in the source, hence `Option ℚ` (`none` = `NaN`). -/
structure MatchVerdict where
  isValid : Bool
  confidence : Option ℚ
  reasoning : List Char
  strategy : Strategy
  score : ℤ
deriving DecidableEq

/-- `validateAnswerAdvanced(userGuess, correctAnswer, imageDescription)`:
the strategy cascade, with the Gemini step abstracted by `judge`.  The
description is used only inside the Gemini prompt, so it influences the
result only through `judge`. -/
def validateAnswerAdvanced (userGuess correctAnswer imageDescription : List Char)
    (judge : Option (Bool × ℚ)) : MatchVerdict :=
  let normalizedGuess := jsTrim (jsToLower userGuess)
  let normalizedAnswer := jsTrim (jsToLower correctAnswer)
  if normalizedGuess = [] then
    ⟨false, some 0, "Empty guess".data, Strategy.EMPTY, 0⟩
  else if normalizedGuess = normalizedAnswer then
    ⟨true, some 1, "Exact match".data, Strategy.EXACT, 100⟩
  else
    let matchRatio : ℚ :=
      qdivN (min normalizedGuess.length normalizedAnswer.length)
        (max normalizedGuess.length normalizedAnswer.length)
    if (jsIncludes normalizedGuess normalizedAnswer ||
          jsIncludes normalizedAnswer normalizedGuess) &&
        decide (qdivN 7 10 ≤ matchRatio) then
      ⟨true, some matchRatio, "Strong substring match".data, Strategy.SUBSTRING,
        jsRound100 matchRatio⟩
    else
      let fuzzyScore := fuzzyMatchScore normalizedGuess normalizedAnswer
      if qdivN 19 20 ≤ fuzzyScore then
        ⟨true, some fuzzyScore, "High fuzzy match score".data, Strategy.FUZZY,
          jsRound100 fuzzyScore⟩
      else
        let guessTokens := tokenizeAndNormalize normalizedGuess
        let answerTokens := tokenizeAndNormalize normalizedAnswer
        let jaccardScore := jaccardSimilarity guessTokens answerTokens
        let tokenCountMatch :=
          jsDivNat (min guessTokens.length answerTokens.length)
            (max guessTokens.length answerTokens.length)
        if jsGe jaccardScore (qdivN 19 20) && jsGe tokenCountMatch (qdivN 3 5) then
          ⟨true, jaccardScore, "Exact word overlap match".data, Strategy.JACCARD,
            match jaccardScore with
            | some q => jsRound100 q
            | none => 0⟩
        else
          match judge with
          | some (jv, jc) =>
            if jv && decide (qdivN 17 20 ≤ jc) then
              ⟨true, some jc, "Gemini validation".data, Strategy.GEMINI_SEMANTIC,
                jsRound100 jc⟩
            else
              ⟨false, jsMax (some fuzzyScore) jaccardScore,
                "Guess does not match answer".data, Strategy.REJECTED, 0⟩
          | none =>
            ⟨false, jsMax (some fuzzyScore) jaccardScore,
              "Guess does not match answer".data, Strategy.REJECTED, 0⟩

/-!
The round state machine: the `gameReducer` / `initialState` of
`src/context/GameContext.jsx` (revision `20251224084142`) and the
`handleGuess` / `loadNewImage` handlers of `src/App.jsx` (revision
`20251219091930`).  Scores and blur amounts are integers at runtime
(decrements of 15 and 4 from 100 and 20, with clamps at 0), modelled as
`ℤ`.  The two asynchronous collaborators of `handleGuess` are abstracted as
parameters: `judge` (the Gemini validation call, as above) and
`hintOutcome` (the hint text produced by
`generateContextualHint` / `generateHintFromAI`, `none` when both throw and
the catch branch substitutes its static fallback).
-/

/-- The state held by `GameContext`'s reducer. -/
structure GameState where
  imageUrl : String
  desc : String
  label : String
  guess : String
  score : ℤ
  attempts : ℕ
  revealed : Bool
  loading : Bool
  blur : ℤ
  hint : String
  hintLevel : ℕ
  previousHints : List String
  highScore : ℤ
deriving DecidableEq

/-- `GAME_ACTIONS`, with each action's payload. -/
inductive GameAction where
  | setImage (payload : String)
  | setLoading (payload : Bool)
  | setGuess (payload : String)
  | setBlur (payload : ℤ)
  | setHint (payload : String)
  | setHintLevel (payload : ℕ)
  | addPreviousHint (payload : String)
  | incrementAttempts
  | decrementScore (payload : ℤ)
  | setScore (payload : ℤ)
  | revealAnswer
  | setHighScore (payload : ℤ)
  | resetGame
  | setLabel (payload : String)
  | setDesc (payload : String)
  | setPreviousHints (payload : List String)

/-- The reducer's `initialState`. -/
def initialState : GameState where
  imageUrl := ""
  desc := ""
  label := ""
  guess := ""
  score := 100
  attempts := 0
  revealed := false
  loading := true
  blur := 20
  hint := "Analyzing data..."
  hintLevel := 0
  previousHints := []
  highScore := 0

/-- `gameReducer(state, action)`. -/
def gameReducer (state : GameState) (action : GameAction) : GameState :=
  match action with
  | .setImage p => { state with imageUrl := p }
  | .setLoading p => { state with loading := p }
  | .setGuess p => { state with guess := p }
  | .setBlur p => { state with blur := p }
  | .setHint p => { state with hint := p }
  | .setHintLevel p => { state with hintLevel := min p 4 }
  | .addPreviousHint p => { state with previousHints := state.previousHints ++ [p] }
  | .incrementAttempts => { state with attempts := state.attempts + 1 }
  | .decrementScore p => { state with score := max 0 (state.score - p) }
  | .setScore p => { state with score := p }
  | .revealAnswer => { state with revealed := true, blur := 0 }
  | .setHighScore p => { state with highScore := p }
  | .resetGame =>
    { imageUrl := ""
      desc := ""
      label := ""
      guess := ""
      score := 100
      attempts := 0
      revealed := false
      loading := true
      blur := 20
      hint := "Analyzing data..."
      hintLevel := 0
      previousHints := []
      highScore := state.highScore }
  | .setLabel p => { state with label := p }
  | .setDesc p => { state with desc := p }
  | .setPreviousHints p => { state with previousHints := p }

/-- `MAX_ATTEMPTS` of `App.jsx` (equal to `gameConfig.mechanics.maxAttempts`). -/
def MAX_ATTEMPTS : ℕ := 5

/-- `SCORE_DECREMENT` of `App.jsx` (equal to `gameConfig.mechanics.scoreDecrement`). -/
def SCORE_DECREMENT : ℤ := 15

/-- `BLUR_DECREMENT` of `App.jsx` (equal to `gameConfig.mechanics.blurDecrement`). -/
def BLUR_DECREMENT : ℤ := 4

/-- `INITIAL_BLUR` of `App.jsx` (equal to `gameConfig.mechanics.initialBlur`). -/
def INITIAL_BLUR : ℤ := 20

/-- The name `validation.strategy` interpolates into the success message. -/
def strategyName : Strategy → String
  | .EMPTY => "EMPTY"
  | .EXACT => "EXACT"
  | .SUBSTRING => "SUBSTRING"
  | .FUZZY => "FUZZY"
  | .JACCARD => "JACCARD"
  | .GEMINI_SEMANTIC => "GEMINI_SEMANTIC"
  | .REJECTED => "REJECTED"

/-- The hint shown while a guess is being validated. -/
def validatingMsg : String := "> Validating answer..."

/-- The hint shown on a correct guess (`Math.round` of an integral score is
itself). -/
def correctMsg (strat : Strategy) (score : ℤ) : String :=
  "> CORRECT! (" ++ strategyName strat ++ ") - Score: " ++ toString score

/-- The game-over hint. -/
def gameOverMsg (label : String) : String :=
  "> GAME OVER (5 attempts). Answer: " ++ String.mk (jsToUpper label.data)

/-- The hint shown while a contextual hint is being generated. -/
def analyzingMsg : String := "> Analyzing your guess..."

/-- The fallback hint when both hint generators throw. -/
def tryAnotherMsg : String := "> Try another guess..."

/-- The next hint text dispatched after a wrong, non-final guess. -/
def hintText : Option String → String
  | some h => "> " ++ h
  | none => tryAnotherMsg

/-- The guard at the top of `handleGuess`:
`if (state.revealed || state.loading) return`. -/
def submitGuard (s : GameState) : Bool := s.revealed || s.loading

/-- What `handleGuess` dispatches before awaiting the validator. -/
def submitPhase1 (store : GameState) : GameState :=
  gameReducer store (.setHint validatingMsg)

/-- The continuation of `handleGuess` after the validator resolves with
`validation`.  All payloads are computed from `snap`, the captured `state`
of the component closure at submission time; each dispatched action is
applied by the reducer to the evolving store. -/
def submitPhase2 (snap store : GameState) (validation : MatchVerdict)
    (hintOutcome : Option String) : GameState :=
  if validation.isValid then
    let s1 := gameReducer store .revealAnswer
    let s2 := gameReducer s1 (.setHint (correctMsg validation.strategy snap.score))
    let s3 :=
      if snap.score > snap.highScore then gameReducer s2 (.setHighScore snap.score) else s2
    gameReducer s3 (.setGuess "")
  else
    let newAttempts := snap.attempts + 1
    let s1 := gameReducer store .incrementAttempts
    let s2 := gameReducer s1 (.decrementScore SCORE_DECREMENT)
    let s3 := gameReducer s2 (.setBlur (max 0 (snap.blur - BLUR_DECREMENT)))
    if MAX_ATTEMPTS ≤ newAttempts then
      let s4 := gameReducer s3 .revealAnswer
      let s5 := gameReducer s4 (.setScore 0)
      let s6 := gameReducer s5 (.setHint (gameOverMsg snap.label))
      gameReducer s6 (.setGuess "")
    else
      let s4 := gameReducer s3 (.setHint analyzingMsg)
      let s5 := gameReducer s4 (.setHint (hintText hintOutcome))
      let s6 := gameReducer s5 (.setHintLevel (snap.hintLevel + 1))
      let s7 := gameReducer s6 (.addPreviousHint snap.hint)
      gameReducer s7 (.setGuess "")

/-- `handleGuess`, run to completion with no interleaved dispatches: the
guard, phase 1, then phase 2 with the submission-time state as snapshot
and the verdict the awaited validator resolved with. -/
def handleGuess (s : GameState) (judge : Option (Bool × ℚ))
    (hintOutcome : Option String) : GameState :=
  if submitGuard s then s
  else
    submitPhase2 s (submitPhase1 s)
      (validateAnswerAdvanced s.guess.data s.label.data s.desc.data judge) hintOutcome

/-- The hint shown first on the success path of `loadNewImage`. -/
def scanningMsg : String := "> Scanning image..."

/-- The fallback first hint when `generateHintFromAI` throws. -/
def beginGuessingMsg : String := "> Image loaded. Begin guessing..."

/-- The hint dispatched on the failure path of `loadNewImage`. -/
def errorLoadMsg : String := "> ERROR: Unable to load"

/-- The success path of `loadNewImage`: reset, then image, description,
label (both set from `imageData.description`), the scanning hint, the
first-hint outcome, and loading off. -/
def loadNewImage (s : GameState) (imageUrl description : String)
    (firstHint : Option String) : GameState :=
  let s1 := gameReducer s .resetGame
  let s2 := gameReducer s1 (.setImage imageUrl)
  let s3 := gameReducer s2 (.setDesc description)
  let s4 := gameReducer s3 (.setLabel description)
  let s5 := gameReducer s4 (.setHint scanningMsg)
  let s6 := gameReducer s5
    (.setHint (match firstHint with | some h => "> " ++ h | none => beginGuessingMsg))
  gameReducer s6 (.setLoading false)

/-- The catch path of `loadNewImage`: the reset has already been
dispatched when the fetch throws. -/
def loadNewImageFailed (s : GameState) : GameState :=
  let s1 := gameReducer s .resetGame
  let s2 := gameReducer s1 (.setHint errorLoadMsg)
  gameReducer s2 (.setLoading false)

/-- The states a round can be in, together with whether some guess has
been accepted so far: a round starts when `loadNewImage` finishes (either
path), and then evolves by typing (`SET_GUESS`) and by complete,
non-overlapping guess submissions. -/
inductive Reach : GameState → Bool → Prop where
  | load (s : GameState) (url d : String) (h : Option String) :
      Reach (loadNewImage s url d h) false
  | loadFail (s : GameState) : Reach (loadNewImageFailed s) false
  | typing {s : GameState} {acc : Bool} (g : String) :
      Reach s acc → Reach (gameReducer s (.setGuess g)) acc
  | submit {s : GameState} {acc : Bool} (judge : Option (Bool × ℚ)) (h : Option String) :
      Reach s acc →
      Reach (handleGuess s judge h)
        (acc || (!submitGuard s &&
          (validateAnswerAdvanced s.guess.data s.label.data s.desc.data judge).isValid))

/-- Typing a guess and submitting it. -/
def submitWithGuess (s : GameState) (g : String) (judge : Option (Bool × ℚ))
    (h : Option String) : GameState :=
  handleGuess (gameReducer s (.setGuess g)) judge h

/-- A sequence of typed-and-submitted guesses, each with its judge outcome
and hint outcome. -/
def submitSeq : GameState → List (String × Option (Bool × ℚ) × Option String) → GameState
  | s, [] => s
  | s, (g, j, h) :: rest => submitSeq (submitWithGuess s g j h) rest

/-- Two overlapping submissions: the second one starts (passes the guard
and dispatches its phase 1) while the first one's validation is still
pending, then the two continuations run in order, each with the snapshot
its closure captured.  If the second submission is blocked by the guard,
only the first completes. -/
def doubleSubmit (s : GameState) (j1 j2 : Option (Bool × ℚ))
    (h1 h2 : Option String) : GameState :=
  if submitGuard s then s
  else
    let v1 := validateAnswerAdvanced s.guess.data s.label.data s.desc.data j1
    let store1 := submitPhase1 s
    if submitGuard store1 then submitPhase2 s store1 v1 h1
    else
      let v2 := validateAnswerAdvanced store1.guess.data store1.label.data store1.desc.data j2
      let store2 := submitPhase1 store1
      let store3 := submitPhase2 s store2 v1 h1
      submitPhase2 store1 store3 v2 h2

/-! Characterisations of one complete guess submission. -/

theorem handleGuess_blocked (s : GameState) (judge : Option (Bool × ℚ)) (h : Option String)
    (hg : submitGuard s = true) : handleGuess s judge h = s := by
  simp [handleGuess, hg]

theorem submitPhase2_invalid (snap store : GameState) (v : MatchVerdict) (h : Option String)
    (hv : v.isValid = false) :
    submitPhase2 snap store v h =
      if MAX_ATTEMPTS ≤ snap.attempts + 1 then
        { store with
          attempts := store.attempts + 1, score := 0, blur := 0, revealed := true,
          hint := gameOverMsg snap.label, guess := "" }
      else
        { store with
          attempts := store.attempts + 1,
          score := max 0 (store.score - SCORE_DECREMENT),
          blur := max 0 (snap.blur - BLUR_DECREMENT),
          hint := hintText h,
          hintLevel := min (snap.hintLevel + 1) 4,
          previousHints := store.previousHints ++ [snap.hint],
          guess := "" } := by
  simp only [submitPhase2, hv, Bool.false_eq_true, if_false]
  by_cases hA : MAX_ATTEMPTS ≤ snap.attempts + 1
  · rw [if_pos hA, if_pos hA]
    simp only [gameReducer]
  · rw [if_neg hA, if_neg hA]
    simp only [gameReducer]

theorem handleGuess_invalid (s : GameState) (judge : Option (Bool × ℚ)) (h : Option String)
    (hg : submitGuard s = false)
    (hv : (validateAnswerAdvanced s.guess.data s.label.data s.desc.data judge).isValid = false) :
    handleGuess s judge h =
      if MAX_ATTEMPTS ≤ s.attempts + 1 then
        { s with
          attempts := s.attempts + 1, score := 0, blur := 0, revealed := true,
          hint := gameOverMsg s.label, guess := "" }
      else
        { s with
          attempts := s.attempts + 1,
          score := max 0 (s.score - SCORE_DECREMENT),
          blur := max 0 (s.blur - BLUR_DECREMENT),
          hint := hintText h,
          hintLevel := min (s.hintLevel + 1) 4,
          previousHints := s.previousHints ++ [s.hint],
          guess := "" } := by
  rw [handleGuess, if_neg (by simp [hg])]
  rw [submitPhase2_invalid _ _ _ _ hv]
  rfl

theorem handleGuess_valid (s : GameState) (judge : Option (Bool × ℚ)) (h : Option String)
    (hg : submitGuard s = false)
    (hv : (validateAnswerAdvanced s.guess.data s.label.data s.desc.data judge).isValid = true) :
    handleGuess s judge h =
      { s with
        revealed := true, blur := 0,
        hint := correctMsg
          (validateAnswerAdvanced s.guess.data s.label.data s.desc.data judge).strategy s.score,
        highScore := if s.score > s.highScore then s.score else s.highScore,
        guess := "" } := by
  rw [handleGuess, if_neg (by simp [hg])]
  simp only [submitPhase2, hv, if_true]
  by_cases hB : s.score > s.highScore
  · rw [if_pos hB, if_pos hB]; rfl
  · rw [if_neg hB, if_neg hB]; rfl

/-- A submission never touches `label`, `desc` or `loading`. -/
theorem handleGuess_frame (s : GameState) (judge : Option (Bool × ℚ)) (h : Option String) :
    (handleGuess s judge h).label = s.label ∧ (handleGuess s judge h).desc = s.desc ∧
    (handleGuess s judge h).loading = s.loading := by
  by_cases hg : submitGuard s = true
  · rw [handleGuess_blocked _ _ _ hg]
    exact ⟨rfl, rfl, rfl⟩
  · rw [Bool.not_eq_true] at hg
    cases hv : (validateAnswerAdvanced s.guess.data s.label.data s.desc.data judge).isValid
    · rw [handleGuess_invalid _ _ _ hg hv]
      split <;> exact ⟨rfl, rfl, rfl⟩
    · rw [handleGuess_valid _ _ _ hg hv]
      exact ⟨rfl, rfl, rfl⟩

/-- Submitting never increases `score` or `blur` as long as both are
non-negative, whatever the verdict. -/
theorem handleGuess_monotone (s : GameState) (judge : Option (Bool × ℚ)) (h : Option String)
    (h0 : 0 ≤ s.score) (h1 : 0 ≤ s.blur) :
    (handleGuess s judge h).score ≤ s.score ∧ (handleGuess s judge h).blur ≤ s.blur := by
  by_cases hg : submitGuard s = true
  · rw [handleGuess_blocked _ _ _ hg]
    exact ⟨le_refl _, le_refl _⟩
  · rw [Bool.not_eq_true] at hg
    cases hv : (validateAnswerAdvanced s.guess.data s.label.data s.desc.data judge).isValid
    · rw [handleGuess_invalid _ _ _ hg hv]
      split
      · exact ⟨h0, h1⟩
      · constructor
        · exact max_le h0 (sub_le_self _ (by norm_num [SCORE_DECREMENT]))
        · exact max_le h1 (sub_le_self _ (by norm_num [BLUR_DECREMENT]))
    · rw [handleGuess_valid _ _ _ hg hv]
      exact ⟨le_refl _, h1⟩

/-! Round invariants over reachable states. -/

def ReachInv (s : GameState) (acc : Bool) : Prop :=
  s.hintLevel ≤ s.attempts ∧ s.attempts ≤ MAX_ATTEMPTS ∧ 0 ≤ s.score ∧ 0 ≤ s.blur ∧
  s.loading = false ∧ (s.revealed = true ↔ (s.attempts = MAX_ATTEMPTS ∨ acc = true)) ∧
  s.label = s.desc

theorem reach_inv (s : GameState) (acc : Bool) (hr : Reach s acc) : ReachInv s acc := by
  induction hr with
  | load s url d h =>
    simp [ReachInv, loadNewImage, gameReducer, MAX_ATTEMPTS]
  | loadFail s =>
    simp [ReachInv, loadNewImageFailed, gameReducer, MAX_ATTEMPTS]
  | typing g hr ih =>
    simpa [ReachInv, gameReducer] using ih
  | submit judge h hr ih =>
    rename_i s acc
    obtain ⟨ih1, ih2, ih3, ih4, ih5, ih6, ih7⟩ := ih
    by_cases hg : submitGuard s = true
    · rw [handleGuess_blocked _ _ _ hg]
      simp only [hg, Bool.not_true, Bool.false_and, Bool.or_false]
      exact ⟨ih1, ih2, ih3, ih4, ih5, ih6, ih7⟩
    · rw [Bool.not_eq_true] at hg
      have hpair : s.revealed = false ∧ s.loading = false := by
        simpa [submitGuard] using hg
      have hnot : ¬(s.attempts = MAX_ATTEMPTS ∨ acc = true) := by
        intro hx
        rw [hpair.1] at ih6
        exact absurd (ih6.mpr hx) (by simp)
      have hattne : s.attempts ≠ MAX_ATTEMPTS := fun hx => hnot (Or.inl hx)
      have haccf : acc = false := by
        cases acc
        · rfl
        · exact absurd (Or.inr rfl) hnot
      cases hv : (validateAnswerAdvanced s.guess.data s.label.data s.desc.data judge).isValid
      · rw [handleGuess_invalid _ _ _ hg hv]
        simp only [hg, hv, Bool.not_false, Bool.true_and, Bool.and_false, Bool.or_false, haccf]
        by_cases hA : MAX_ATTEMPTS ≤ s.attempts + 1
        · rw [if_pos hA]
          simp only [ReachInv]
          refine ⟨le_trans ih1 (Nat.le_succ _), by omega, le_refl _, le_refl _, ih5, ?_, ih7⟩
          simp only [true_iff]
          left
          omega
        · rw [if_neg hA]
          simp only [ReachInv]
          refine ⟨le_trans (min_le_left _ _) (Nat.succ_le_succ ih1), by omega, le_max_left _ _,
            le_max_left _ _, ih5, ?_, ih7⟩
          rw [hpair.1]
          refine iff_of_false (by simp) ?_
          rintro (hx | hx)
          · omega
          · simp at hx
      · rw [handleGuess_valid _ _ _ hg hv]
        simp only [hg, hv, Bool.not_false, Bool.true_and, Bool.or_true]
        simp only [ReachInv]
        refine ⟨ih1, ih2, ih3, le_refl _, ih5, ?_, ih7⟩
        simp

/-- A run of nothing but rejected guesses that exhausts the attempt budget:
every step of the run increments `attempts`, and the step that reaches
`MAX_ATTEMPTS` reveals the answer and forces score and blur to `0`. -/
theorem submitSeq_allWrong (inputs : List (String × Option (Bool × ℚ) × Option String)) :
    ∀ s : GameState, s.revealed = false → s.loading = false →
    s.attempts + inputs.length = MAX_ATTEMPTS → inputs ≠ [] →
    (∀ t ∈ inputs,
      (validateAnswerAdvanced t.1.data s.label.data s.desc.data t.2.1).isValid = false) →
    (submitSeq s inputs).revealed = true ∧ (submitSeq s inputs).score = 0 ∧
    (submitSeq s inputs).blur = 0 := by
  induction inputs with
  | nil =>
    intro s _ _ _ hne _
    exact absurd rfl hne
  | cons t rest ih =>
    obtain ⟨g, j, h⟩ := t
    intro s hrev hload hlen _ hall
    have hguard : submitGuard (gameReducer s (.setGuess g)) = false := by
      simp [submitGuard, gameReducer, hrev, hload]
    have hv' : (validateAnswerAdvanced (gameReducer s (GameAction.setGuess g)).guess.data
        (gameReducer s (GameAction.setGuess g)).label.data
        (gameReducer s (GameAction.setGuess g)).desc.data j).isValid = false := by
      simpa [gameReducer] using hall (g, j, h) (List.mem_cons_self _ _)
    have hstep := handleGuess_invalid (gameReducer s (.setGuess g)) j h hguard hv'
    simp only [submitSeq, submitWithGuess]
    cases rest with
    | nil =>
      have hterm : MAX_ATTEMPTS ≤ (gameReducer s (GameAction.setGuess g)).attempts + 1 := by
        simp only [gameReducer]
        simp only [List.length_cons, List.length_nil] at hlen
        omega
      rw [hstep, if_pos hterm]
      simp [submitSeq]
    | cons r rs =>
      have hnterm : ¬ MAX_ATTEMPTS ≤ (gameReducer s (GameAction.setGuess g)).attempts + 1 := by
        simp only [gameReducer]
        simp only [List.length_cons] at hlen
        omega
      rw [hstep, if_neg hnterm]
      apply ih
      · simp [gameReducer, hrev]
      · simp [gameReducer, hload]
      · simp only [gameReducer]
        simp only [List.length_cons] at hlen ⊢
        omega
      · simp
      · intro u hu
        have hu' := hall u (List.mem_cons_of_mem _ hu)
        simpa [gameReducer] using hu'

/-!
The claims.
-/

/-- An ACTIVE round freshly loaded for answer `"sunset"`, with a
whitespace-only guess typed in. -/
def c1State : GameState :=
  gameReducer (loadNewImage initialState "img://u" "sunset" none) (.setGuess " ")

/-- C1 counterexample: submitting a whitespace-only guess in an ACTIVE
round is not a no-op — attempts, score and blur all change. -/
theorem C1_counterexample_empty_guess_mutates_state :
    (handleGuess c1State none none).attempts = 1 ∧ c1State.attempts = 0 ∧
    (handleGuess c1State none none).score = 85 ∧ c1State.score = 100 ∧
    (handleGuess c1State none none).blur = 16 ∧ c1State.blur = 20 ∧
    handleGuess c1State none none ≠ c1State := by decide

/-- C1 (amended): in an ACTIVE round, a guess that is empty after trimming
is rejected by the validator with strategy `EMPTY`, but `handleGuess` has
no local empty-guess check: the submission is processed as an ordinary
incorrect attempt — `attempts + 1`, `score = max 0 (score - 15)`,
`blur = max 0 (blur - 4)` (with the usual game-over forcing when the
budget runs out).  Only a round that is revealed or loading is a true
no-op. -/
theorem C1_amended_empty_guess_is_wrong_attempt (s : GameState)
    (judge : Option (Bool × ℚ)) (h : Option String)
    (hg : submitGuard s = false)
    (hempty : jsTrim (jsToLower s.guess.data) = []) :
    (validateAnswerAdvanced s.guess.data s.label.data s.desc.data judge).strategy =
      Strategy.EMPTY ∧
    (validateAnswerAdvanced s.guess.data s.label.data s.desc.data judge).isValid = false ∧
    (handleGuess s judge h).attempts = s.attempts + 1 ∧
    (s.attempts + 1 < MAX_ATTEMPTS →
      (handleGuess s judge h).score = max 0 (s.score - SCORE_DECREMENT) ∧
      (handleGuess s judge h).blur = max 0 (s.blur - BLUR_DECREMENT) ∧
      (handleGuess s judge h).hintLevel = min (s.hintLevel + 1) 4) := by
  have hverd : validateAnswerAdvanced s.guess.data s.label.data s.desc.data judge =
      ⟨false, some 0, "Empty guess".data, Strategy.EMPTY, 0⟩ := by
    simp only [validateAnswerAdvanced, hempty]
    exact if_pos trivial
  have hv : (validateAnswerAdvanced s.guess.data s.label.data s.desc.data judge).isValid =
      false := by rw [hverd]
  refine ⟨by rw [hverd], hv, ?_, ?_⟩
  · rw [handleGuess_invalid _ _ _ hg hv]
    split <;> rfl
  · intro hlt
    rw [handleGuess_invalid _ _ _ hg hv, if_neg (by omega)]
    exact ⟨rfl, rfl, rfl⟩

/-- Witness for the amended C1 at the concrete state `c1State`. -/
theorem C1_amended_witness :
    submitGuard c1State = false ∧ jsTrim (jsToLower c1State.guess.data) = [] ∧
    (handleGuess c1State none none).attempts = c1State.attempts + 1 :=
  ⟨by decide, by decide,
    (C1_amended_empty_guess_is_wrong_attempt c1State none none (by decide) (by decide)).2.2.1⟩

/-- C2 counterexample: for answer `"sunset"` and guess `"Sunset!!"` the
engine does not return `EXACT` with confidence `1.0`: the shared
normalisation only lower-cases and trims, so the punctuation survives and
the guess is accepted by the `SUBSTRING` stage with confidence
`6 / 8 = 0.75`. -/
theorem C2_counterexample_sunset_substring_not_exact :
    (validateAnswerAdvanced "Sunset!!".data "sunset".data "a sunset sky".data none).strategy =
      Strategy.SUBSTRING ∧
    (validateAnswerAdvanced "Sunset!!".data "sunset".data "a sunset sky".data none).strategy ≠
      Strategy.EXACT ∧
    (validateAnswerAdvanced "Sunset!!".data "sunset".data "a sunset sky".data none).confidence =
      some (qdivN 6 8) ∧
    qdivN 6 8 = (3 : ℚ)/4 ∧ ((3 : ℚ)/4 ≠ 1) := by
  refine ⟨by decide, by decide, by decide, ?_, by norm_num⟩
  rw [qdivN_eq 6 8 (by decide)]
  norm_num

/-- C2 (amended): the shared preprocessing lower-cases and trims but does
not strip punctuation (stripping happens only inside tokenization for the
Jaccard stage); consequently, for answer `"sunset"` and guess `"Sunset!!"`
the engine accepts at the `SUBSTRING` stage with confidence `0.75`, for
every description and every judge outcome. -/
theorem C2_amended_sunset_substring_three_quarters (d : List Char)
    (judge : Option (Bool × ℚ)) :
    validateAnswerAdvanced "Sunset!!".data "sunset".data d judge =
      ⟨true, some ((3 : ℚ)/4), "Strong substring match".data, Strategy.SUBSTRING, 75⟩ := by
  have h34 : (3 : ℚ)/4 = qdivN 6 8 := by
    rw [qdivN_eq 6 8 (by decide)]
    norm_num
  rw [h34]
  simp only [validateAnswerAdvanced]
  rw [if_neg (by decide), if_neg (by decide), if_pos (by decide)]
  decide

/-- C3: on the final-rejection path the confidence is
`Math.max(fuzzyScore, jaccardScore)`; when guess and answer both tokenize
to nothing (for example all-punctuation strings) `jaccardScore` is
`0 / 0 = NaN` and `Math.max` propagates it, so the returned confidence is
`NaN` — not a real number in `[0, 1]`. -/
theorem C3_rejection_confidence_nan :
    (validateAnswerAdvanced "!!!".data "???".data "any scene".data none).strategy =
      Strategy.REJECTED ∧
    (validateAnswerAdvanced "!!!".data "???".data "any scene".data none).confidence = none := by
  decide

/-- C4: `jaccardSimilarity` divides the set sizes without guarding the
empty union: for two empty token lists the JavaScript result is
`0 / 0 = NaN` (modelled `none`), not the `0` the spec requires.  On any
non-empty union the function is an ordinary ratio. -/
theorem C4_jaccard_empty_empty_nan :
    jaccardSimilarity [] [] = none ∧
    jaccardSimilarity ["sunset".data] ["sunset".data] = some 1 := by
  decide

/-- C5 counterexample: reflexivity fails at `s = ""`: the engine rejects
with strategy `EMPTY` and confidence `0` instead of `EXACT` with `1.0`. -/
theorem C5_counterexample_empty_string_not_exact :
    (validateAnswerAdvanced "".data "".data "".data none).strategy = Strategy.EMPTY ∧
    (validateAnswerAdvanced "".data "".data "".data none).strategy ≠ Strategy.EXACT ∧
    (validateAnswerAdvanced "".data "".data "".data none).confidence = some 0 ∧
    (validateAnswerAdvanced "".data "".data "".data none).isValid = false := by
  decide

/-- C5 (amended): for every string `s` that is non-empty after
normalisation (lower-casing and trimming), matching `s` against itself
returns `EXACT` with confidence `1.0`, for every description and judge
outcome.  The whitespace-only strings are the only exception, and they are
rejected as `EMPTY`. -/
theorem C5_amended_reflexivity_nonempty (s d : List Char) (judge : Option (Bool × ℚ))
    (hne : jsTrim (jsToLower s) ≠ []) :
    validateAnswerAdvanced s s d judge =
      ⟨true, some 1, "Exact match".data, Strategy.EXACT, 100⟩ := by
  simp only [validateAnswerAdvanced]
  rw [if_neg hne]
  exact if_pos trivial

/-- Witness for the amended C5 at `s = "cat"`. -/
theorem C5_amended_witness :
    jsTrim (jsToLower "cat".data) ≠ [] ∧
    validateAnswerAdvanced "cat".data "cat".data "".data none =
      ⟨true, some 1, "Exact match".data, Strategy.EXACT, 100⟩ :=
  ⟨by decide, C5_amended_reflexivity_nonempty "cat".data "".data none (by decide)⟩

/-- C6: in an ACTIVE round, a rejected guess increments `attempts` and (as
long as the budget is not exhausted) sets `score = max 0 (score - 15)` and
`blur = max 0 (blur - 4)`; the guess that reaches `MAX_ATTEMPTS = 5` forces
`revealed = true`, `score = 0` and `blur = 0`; and a run of exactly five
rejected guesses from a fresh round always ends with `revealed = true`,
`score = 0` and `blur = 0`, regardless of the intermediate values. -/
theorem C6_wrong_guess_penalties_and_termination :
    (∀ (s : GameState) (judge : Option (Bool × ℚ)) (h : Option String),
      submitGuard s = false →
      (validateAnswerAdvanced s.guess.data s.label.data s.desc.data judge).isValid = false →
      (handleGuess s judge h).attempts = s.attempts + 1 ∧
      (s.attempts + 1 < MAX_ATTEMPTS →
        (handleGuess s judge h).score = max 0 (s.score - SCORE_DECREMENT) ∧
        (handleGuess s judge h).blur = max 0 (s.blur - BLUR_DECREMENT)) ∧
      (s.attempts + 1 = MAX_ATTEMPTS →
        (handleGuess s judge h).revealed = true ∧ (handleGuess s judge h).score = 0 ∧
        (handleGuess s judge h).blur = 0)) ∧
    (∀ (s : GameState) (inputs : List (String × Option (Bool × ℚ) × Option String)),
      s.revealed = false → s.loading = false → s.attempts = 0 →
      inputs.length = MAX_ATTEMPTS →
      (∀ t ∈ inputs,
        (validateAnswerAdvanced t.1.data s.label.data s.desc.data t.2.1).isValid = false) →
      (submitSeq s inputs).revealed = true ∧ (submitSeq s inputs).score = 0 ∧
      (submitSeq s inputs).blur = 0) := by
  constructor
  · intro s judge h hg hv
    rw [handleGuess_invalid _ _ _ hg hv]
    by_cases hA : MAX_ATTEMPTS ≤ s.attempts + 1
    · rw [if_pos hA]
      refine ⟨rfl, ?_, ?_⟩
      · intro hlt
        exact absurd hA (by omega)
      · intro _
        exact ⟨rfl, rfl, rfl⟩
    · rw [if_neg hA]
      refine ⟨rfl, ?_, ?_⟩
      · intro _
        exact ⟨rfl, rfl⟩
      · intro heq
        exact absurd (le_of_eq heq.symm) hA
  · intro s inputs h1 h2 h3 h4 h5
    refine submitSeq_allWrong inputs s h1 h2 (by omega) ?_ h5
    intro he
    rw [he] at h4
    simp [MAX_ATTEMPTS] at h4

/-- A fresh round for answer `"lighthouse"`. -/
def c6Start : GameState := loadNewImage initialState "img://lighthouse" "lighthouse" none

/-- Five wrong guesses, each with a failed judge call and a failed hint
call. -/
def c6Guesses : List (String × Option (Bool × ℚ) × Option String) :=
  [("cat", none, none), ("dog", none, none), ("tree", none, none), ("car", none, none),
    ("boat", none, none)]

/-- Witness for C6: the concrete five-wrong-guess run on `"lighthouse"`. -/
theorem C6_witness :
    (c6Start.revealed = false ∧ c6Start.loading = false ∧ c6Start.attempts = 0 ∧
      c6Guesses.length = MAX_ATTEMPTS ∧
      (∀ t ∈ c6Guesses,
        (validateAnswerAdvanced t.1.data c6Start.label.data c6Start.desc.data t.2.1).isValid =
          false)) ∧
    (submitSeq c6Start c6Guesses).revealed = true ∧
    (submitSeq c6Start c6Guesses).score = 0 ∧ (submitSeq c6Start c6Guesses).blur = 0 :=
  ⟨⟨by decide, by decide, by decide, by decide, by decide⟩,
    C6_wrong_guess_penalties_and_termination.2 c6Start c6Guesses (by decide) (by decide)
      (by decide) (by decide) (by decide)⟩

/-- C7: over every state a round can reach (fresh load, then typing and
complete submissions), `hintLevel ≤ attempts`; `revealed` is true exactly
when the attempt budget is exhausted or some guess has been accepted; and
neither typing nor a submission ever increases `score` or `blur`. -/
theorem C7_round_invariants :
    ∀ (s : GameState) (acc : Bool), Reach s acc →
      s.hintLevel ≤ s.attempts ∧
      (s.revealed = true ↔ (s.attempts = MAX_ATTEMPTS ∨ acc = true)) ∧
      (∀ g : String, (gameReducer s (.setGuess g)).score ≤ s.score ∧
        (gameReducer s (.setGuess g)).blur ≤ s.blur) ∧
      (∀ (judge : Option (Bool × ℚ)) (h : Option String),
        (handleGuess s judge h).score ≤ s.score ∧ (handleGuess s judge h).blur ≤ s.blur) := by
  intro s acc hr
  obtain ⟨i1, i2, i3, i4, i5, i6, i7⟩ := reach_inv s acc hr
  refine ⟨i1, i6, ?_, ?_⟩
  · intro g
    exact ⟨le_refl _, le_refl _⟩
  · intro judge h
    exact handleGuess_monotone s judge h i3 i4

/-- Witness for C7 at a freshly loaded round. -/
theorem C7_witness :
    (loadNewImage initialState "img://a" "a forest" none).hintLevel ≤
      (loadNewImage initialState "img://a" "a forest" none).attempts :=
  (C7_round_invariants _ false (Reach.load initialState "img://a" "a forest" none)).1

/-- The round used for the double-submission scenario: four wrong guesses
on `"lighthouse"`, then `"boat"` typed into the form. -/
def c8State : GameState :=
  gameReducer
    (submitSeq (loadNewImage initialState "img://l" "lighthouse" (some "a coastal beacon"))
      [("cat", none, none), ("dog", none, none), ("tree", none, none), ("car", none, none)])
    (.setGuess "boat")

/-- C8: `handleGuess` has no single-flight guard — its only guard is
`state.revealed || state.loading`, and while a wrong-guess evaluation is
pending both flags are still false, so a second submission is processed
rather than ignored.  From `attempts = 4`, two overlapping submissions of
a wrong guess drive `attempts` to `6 > MAX_ATTEMPTS`, which a single
submission (`attempts = 5`) never does. -/
theorem C8_double_submission_exceeds_max_attempts :
    c8State.attempts = 4 ∧ c8State.revealed = false ∧ c8State.loading = false ∧
    (handleGuess c8State none none).attempts = 5 ∧
    (doubleSubmit c8State none none none none).attempts = 6 ∧
    MAX_ATTEMPTS = 5 := by
  decide

/-- C9: a freshly loaded round sets `label` and `desc` to the same source
string (the image's description); submissions and typing never touch
either field; hence `label = desc` in every reachable round state. -/
theorem C9_label_equals_desc :
    (∀ (s : GameState) (acc : Bool), Reach s acc → s.label = s.desc) ∧
    (∀ (s : GameState) (url d : String) (h : Option String),
      (loadNewImage s url d h).label = d ∧ (loadNewImage s url d h).desc = d) ∧
    (∀ (s : GameState) (judge : Option (Bool × ℚ)) (h : Option String),
      (handleGuess s judge h).label = s.label ∧ (handleGuess s judge h).desc = s.desc) ∧
    (∀ (s : GameState) (g : String),
      (gameReducer s (.setGuess g)).label = s.label ∧
      (gameReducer s (.setGuess g)).desc = s.desc) := by
  refine ⟨?_, ?_, ?_, ?_⟩
  · intro s acc hr
    exact (reach_inv s acc hr).2.2.2.2.2.2
  · intro s url d h
    exact ⟨rfl, rfl⟩
  · intro s judge h
    exact ⟨(handleGuess_frame s judge h).1, (handleGuess_frame s judge h).2.1⟩
  · intro s g
    exact ⟨rfl, rfl⟩

/-- Witness for C9 at a freshly loaded round. -/
theorem C9_witness :
    (loadNewImage initialState "img://b" "a harbor" none).label =
      (loadNewImage initialState "img://b" "a harbor" none).desc :=
  C9_label_equals_desc.1 _ false (Reach.load initialState "img://b" "a harbor" none)

/-- C10: `RESET_GAME` returns the initial state with exactly `highScore`
carried over from the previous state; every other field is reset to its
initial value. -/
theorem C10_reset_preserves_exactly_highscore (s : GameState) :
    gameReducer s .resetGame = { initialState with highScore := s.highScore } := rfl
